import Mathlib

/-!
Shallow embedding of `internal/job/vault-cred-sync.go` from the
`vault-cred` repository, together with theorems checking the
specification's claims about the sync job.

Modelling conventions:
* Go `map[string]string` values are association lists (`SMap`); lookup is
  last-write-wins, matching Go map assignment.
* JSON payloads are a small JSON AST (`Json`); `encoding/json` struct
  unmarshalling is modelled field by field (missing member or `null`
  leaves the zero value, wrong shape is an error).  Text-level lexing and
  Go's case-insensitive field-name fallback are not modelled; no claim
  depends on them.
* `time.Time` values are integers: `Equal` is `=` and `Add(0)` is the
  identity.
* The external collaborators (k8s client construction, `GetSecret`,
  vault-client authentication, `PutCredential`) are an explicit
  environment `RunEnv`; `PutCredential`'s success is an arbitrary
  function of its arguments.
-/

namespace VaultCredSync

/-- Go `map[string]string`, as an association list. -/
abbrev SMap := List (String × String)

/-- Map lookup.  When a raw list carries duplicate keys the later entry
wins, matching the effect of repeated Go map assignment. -/
def smapGet : SMap → String → Option String
  | [], _ => none
  | p :: rest, k =>
    match smapGet rest k with
    | some r => some r
    | none => if p.1 = k then some p.2 else none

/-- Go map assignment `m[k] = v`: replace the entry for `k` when present,
otherwise add a new one. -/
def smapInsert (m : SMap) (k v : String) : SMap :=
  if m.any (fun p => p.1 == k) then
    m.map (fun p => if p.1 == k then (k, v) else p)
  else m ++ [(k, v)]

/-- `for key, val := range l { m[key] = val }` starting from map `m`. -/
def smapOverlay (m l : SMap) : SMap :=
  l.foldl (fun acc p => smapInsert acc p.1 p.2) m

/-- A JSON value as seen by `encoding/json`.  `jother` stands for any
value that is neither a string, an object nor `null` (numbers, booleans,
arrays): unmarshalling it into a `string` or `map[string]string` field,
or into a struct, is a type error. -/
inductive Json where
  | jnull : Json
  | jstr : String → Json
  | jobj : List (String × Json) → Json
  | jother : Json

/-- Member lookup in a decoded JSON object; with duplicate keys the last
occurrence wins, as in `encoding/json`. -/
def jlookup (fields : List (String × Json)) (k : String) : Option Json :=
  fields.foldl (fun acc p => if p.1 == k then some p.2 else acc) none

/-- Unmarshal object member `k` into a `string` struct field: a missing
member or JSON `null` leaves the zero value `""`; a string is taken as
is; anything else is a type error. -/
def decodeStrField (fields : List (String × Json)) (k : String) : Option String :=
  match jlookup fields k with
  | none => some ""
  | some .jnull => some ""
  | some (.jstr s) => some s
  | some _ => none

/-- Unmarshal a JSON object into a `map[string]string`: every member must
be a string (`null` stores the zero value `""`). -/
def decodeStrMap (kvs : List (String × Json)) : Option SMap :=
  kvs.foldl
    (fun acc p =>
      acc.bind fun m =>
        match p.2 with
        | .jstr s => some (smapInsert m p.1 s)
        | .jnull => some (smapInsert m p.1 "")
        | _ => none)
    (some [])

/-- Unmarshal object member `k` into a `map[string]string` struct field:
missing or `null` leaves the zero value (a `nil` map, which iterates as
empty). -/
def decodeMapField (fields : List (String × Json)) (k : String) : Option SMap :=
  match jlookup fields k with
  | none => some []
  | some .jnull => some []
  | some (.jobj kvs) => decodeStrMap kvs
  | some _ => none

/-- `CertificateData` (struct names and the `certIndetifier` JSON-tag typo
are the source's). -/
structure CertificateData where
  EntityName : String
  CertIndentifier : String
  CACert : String
  Key : String
  Cert : String
deriving DecidableEq

/-- `ServiceCredentail` (typo is the source's). -/
structure ServiceCredentail where
  EntityName : String
  CredIndentifier : String
  UserName : String
  Password : String
  AdditionalData : SMap
deriving DecidableEq

/-- `GenericCredential`. -/
structure GenericCredential where
  CredentialType : String
  EntityName : String
  CredIndentifier : String
  Credential : SMap
deriving DecidableEq

/-- `json.Unmarshal` into `ServiceCredentail`.  A top-level `null` is a
no-op leaving the zero struct; a non-object top level is an error;
unknown members are ignored. -/
def decodeServiceCredentail : Json → Option ServiceCredentail
  | .jnull => some ⟨"", "", "", "", []⟩
  | .jobj fields => do
    let e ← decodeStrField fields "entityName"
    let c ← decodeStrField fields "credIndetifier"
    let u ← decodeStrField fields "userName"
    let p ← decodeStrField fields "password"
    let a ← decodeMapField fields "additionalData"
    some ⟨e, c, u, p, a⟩
  | _ => none

/-- `json.Unmarshal` into `CertificateData`. -/
def decodeCertificateData : Json → Option CertificateData
  | .jnull => some ⟨"", "", "", "", ""⟩
  | .jobj fields => do
    let e ← decodeStrField fields "entityName"
    let c ← decodeStrField fields "certIndetifier"
    let ca ← decodeStrField fields "caCert"
    let k ← decodeStrField fields "key"
    let ct ← decodeStrField fields "cert"
    some ⟨e, c, ca, k, ct⟩
  | _ => none

/-- `json.Unmarshal` into `GenericCredential`. -/
def decodeGenericCredential : Json → Option GenericCredential
  | .jnull => some ⟨"", "", "", []⟩
  | .jobj fields => do
    let t ← decodeStrField fields "credentialType"
    let e ← decodeStrField fields "entityName"
    let c ← decodeStrField fields "credIndetifier"
    let cr ← decodeMapField fields "credential"
    some ⟨t, e, c, cr⟩
  | _ => none

def serviceCredSecretKeyPrefix : String := "SERVICE-CRED"
def certSecretKeyPrefix : String := "CERTS"
def genericSecretKeyPrefix : String := "GENERIC"
def caDataKey : String := "ca.pem"
def certDataKey : String := "cert.crt"
def keyDataKey : String := "key.key"
def serviceCredentialUserNameKey : String := "userName"
def serviceCredentialPasswordKey : String := "password"

/-- `strings.ToLower`, restricted to ASCII — which covers everything the
source applies it to (the constant key-prefixes). -/
def charToLower (c : Char) : Char :=
  if 65 ≤ c.toNat ∧ c.toNat ≤ 90 then Char.ofNat (c.toNat + 32) else c

def stringsToLower (s : String) : String := ⟨s.data.map charToLower⟩

/-- `strings.HasPrefix s p`. -/
def stringsHasPrefix (s p : String) : Bool := p.data.isPrefixOf s.data

/-- Modelled from the spec: `api.PrepareCredentialSecretPath` lives in
`internal/api`, which is not under `src/`.  The spec describes the vault
path as a hierarchical location derived deterministically from
(credential-type-prefix, entity name, credential identifier); modelled as
the `/`-joined triple. -/
def PrepareCredentialSecretPath (credentialType entityName credIdentifier : String) : String :=
  credentialType ++ "/" ++ entityName ++ "/" ++ credIdentifier

/-- Modelled from the spec: `api.CredentialMountPath` is not under `src/`;
the spec only requires a fixed credential mount root, so it is a fixed
constant (its exact value is never relied on). -/
def CredentialMountPath : String := "secret"

/-- One `PutCredential` call's arguments. -/
structure VaultWrite where
  mountPath : String
  secretPath : String
  credential : SMap
deriving DecidableEq

/-- The observable result of one store operation.  `validationSkip`
records that the empty-field check fired: the source then returns
`errors.WithMessagef(err, ...)` with `err == nil`, which `pkg/errors`
turns into a `nil` error — the entry is skipped with no vault write and
no error logged.  Error/info messages keep the source's format strings;
the text of the wrapped underlying error is abstracted away. -/
inductive StoreOutcome where
  | parseErr : String → StoreOutcome
  | validationSkip : StoreOutcome
  | writeErr : VaultWrite → String → StoreOutcome
  | ok : VaultWrite → String → StoreOutcome
deriving DecidableEq

/-- The `PutCredential` call the operation made, if any. -/
def StoreOutcome.attempted : StoreOutcome → Option VaultWrite
  | .writeErr w _ => some w
  | .ok w _ => some w
  | _ => none

/-- The successful `PutCredential` call, if any. -/
def StoreOutcome.succeeded : StoreOutcome → Option VaultWrite
  | .ok w _ => some w
  | _ => none

/-- `k8s.GetSecret`'s result: the secret's data entries (a Go map; the
list order stands for the arbitrary iteration order) and its
`LastUpdatedTime`. -/
structure SecretValues where
  data : List (String × Json)
  lastUpdatedTime : Int

/-- The external collaborators of one `Run` cycle. -/
structure RunEnv where
  k8sOk : Bool
  fetchResult : Option SecretValues
  authOk : Bool
  writeOk : String → String → SMap → Bool

/-- The attribute map built by `storeServiceCredential`: seeded with the
`userName`/`password` keys, then overlaid with every `AdditionalData`
entry. -/
def serviceCredAttrs (d : ServiceCredentail) : SMap :=
  smapOverlay
    [(serviceCredentialUserNameKey, d.UserName), (serviceCredentialPasswordKey, d.Password)]
    d.AdditionalData

/-- `VaultCredSync.storeServiceCredential`. -/
def storeServiceCredential (env : RunEnv) (secretIdentifier : String) (secretData : Json) :
    StoreOutcome :=
  match decodeServiceCredentail secretData with
  | none => .parseErr ("failed to parse " ++ secretIdentifier ++ " secret data")
  | some serviceCredData =>
    if serviceCredData.UserName = "" ∨ serviceCredData.Password = "" ∨
        serviceCredData.EntityName = "" then
      .validationSkip
    else
      let cred := serviceCredAttrs serviceCredData
      let secretPath := PrepareCredentialSecretPath (stringsToLower serviceCredSecretKeyPrefix)
        serviceCredData.EntityName serviceCredData.CredIndentifier
      if env.writeOk CredentialMountPath secretPath cred then
        .ok ⟨CredentialMountPath, secretPath, cred⟩
          ("stored sync service credential for " ++ serviceCredData.EntityName ++ "/" ++
            serviceCredData.CredIndentifier)
      else
        .writeErr ⟨CredentialMountPath, secretPath, cred⟩
          ("failed to write " ++ secretIdentifier ++ " secret data to vault")

/-- The attribute map built by `storeCertData`: exactly the three fixed
keys. -/
def certCredAttrs (d : CertificateData) : SMap :=
  [(caDataKey, d.CACert), (certDataKey, d.Cert), (keyDataKey, d.Key)]

/-- `VaultCredSync.storeCertData`. -/
def storeCertData (env : RunEnv) (secretIdentifier : String) (secretData : Json) :
    StoreOutcome :=
  match decodeCertificateData secretData with
  | none => .parseErr ("failed to parse " ++ secretIdentifier ++ " secret data")
  | some certData =>
    if certData.CACert = "" ∨ certData.Cert = "" ∨ certData.Key = "" ∨
        certData.EntityName = "" ∨ certData.CertIndentifier = "" then
      .validationSkip
    else
      let cred := certCredAttrs certData
      let secretPath := PrepareCredentialSecretPath (stringsToLower certSecretKeyPrefix)
        certData.EntityName certData.CertIndentifier
      if env.writeOk CredentialMountPath secretPath cred then
        .ok ⟨CredentialMountPath, secretPath, cred⟩
          ("stored sync cert for " ++ certData.EntityName ++ "/" ++ certData.CertIndentifier)
      else
        .writeErr ⟨CredentialMountPath, secretPath, cred⟩
          ("failed to write " ++ secretIdentifier ++ " secret data to vault")

/-- The attribute map built by `storeGenericCredential`: a fresh map
filled from the record's `Credential` map, no seeded keys. -/
def genericCredAttrs (d : GenericCredential) : SMap :=
  smapOverlay [] d.Credential

/-- `VaultCredSync.storeGenericCredential`.  The path's type segment is
the record's own `CredentialType`, used verbatim (not lower-cased, not
the `GENERIC` classification prefix). -/
def storeGenericCredential (env : RunEnv) (secretIdentifier : String) (secretData : Json) :
    StoreOutcome :=
  match decodeGenericCredential secretData with
  | none => .parseErr ("failed to parse " ++ secretIdentifier ++ " secret data")
  | some genericCredData =>
    if genericCredData.EntityName = "" ∨ genericCredData.CredIndentifier = "" ∨
        genericCredData.CredentialType = "" then
      .validationSkip
    else
      let cred := genericCredAttrs genericCredData
      let secretPath := PrepareCredentialSecretPath genericCredData.CredentialType
        genericCredData.EntityName genericCredData.CredIndentifier
      if env.writeOk CredentialMountPath secretPath cred then
        .ok ⟨CredentialMountPath, secretPath, cred⟩
          ("stored sync credential for " ++ genericCredData.CredentialType ++ "/" ++
            genericCredData.EntityName ++ "/" ++ genericCredData.CredIndentifier)
      else
        .writeErr ⟨CredentialMountPath, secretPath, cred⟩
          ("failed to write " ++ secretIdentifier ++ " secret data to vault")

/-- What one loop iteration of `Run` did with an entry. -/
inductive EntryResult where
  | unsupported : String → EntryResult
  | handled : StoreOutcome → EntryResult
deriving DecidableEq

def EntryResult.attempted : EntryResult → Option VaultWrite
  | .handled o => o.attempted
  | .unsupported _ => none

def EntryResult.succeeded : EntryResult → Option VaultWrite
  | .handled o => o.succeeded
  | .unsupported _ => none

/-- Whether `Run` logs this entry with `v.log.Errorf`, i.e. whether the
store operation returned a non-nil error. -/
def EntryResult.loggedError : EntryResult → Bool
  | .handled (.parseErr _) => true
  | .handled (.writeErr _ _) => true
  | _ => false

/-- The dispatch on `key` inside `Run`'s loop: the three prefix tests in
the source's order, else the informational "not supported" log. -/
def processEntry (env : RunEnv) (key : String) (secretValue : Json) : EntryResult :=
  if stringsHasPrefix key serviceCredSecretKeyPrefix then
    .handled (storeServiceCredential env key secretValue)
  else if stringsHasPrefix key certSecretKeyPrefix then
    .handled (storeCertData env key secretValue)
  else if stringsHasPrefix key genericSecretKeyPrefix then
    .handled (storeGenericCredential env key secretValue)
  else
    .unsupported ("credentail type " ++ key ++ " not supported")

/-- The observable trace of one `Run`: how many vault-client
authentications were attempted, and what happened to each entry. -/
structure RunTrace where
  auths : Nat
  entries : List (String × EntryResult)
deriving DecidableEq

def RunTrace.successfulWrites (t : RunTrace) : List VaultWrite :=
  t.entries.filterMap (fun p => p.2.succeeded)

def RunTrace.attemptedWrites (t : RunTrace) : List VaultWrite :=
  t.entries.filterMap (fun p => p.2.attempted)

/-- The guard at the top of `Run`:
`v.lastUpdatedTime != nil && v.lastUpdatedTime.Equal(secretValues.LastUpdatedTime)`. -/
def cursorSkips : Option Int → Int → Bool
  | none, _ => false
  | some t, t' => t == t'

/-- `VaultCredSync.Run`, as a function of the held cursor and the
environment; returns the cursor after the cycle and the cycle's trace.
`updateTime := secretValues.LastUpdatedTime.Add(0)` is the identity on
the modelled timestamp. -/
def Run (lastUpdatedTime : Option Int) (env : RunEnv) : Option Int × RunTrace :=
  if env.k8sOk = false then (lastUpdatedTime, ⟨0, []⟩)
  else
    match env.fetchResult with
    | none => (lastUpdatedTime, ⟨0, []⟩)
    | some secretValues =>
      if cursorSkips lastUpdatedTime secretValues.lastUpdatedTime then
        (lastUpdatedTime, ⟨0, []⟩)
      else if env.authOk = false then
        (lastUpdatedTime, ⟨1, []⟩)
      else
        (some secretValues.lastUpdatedTime,
          ⟨1, secretValues.data.map (fun p => (p.1, processEntry env p.1 p.2))⟩)

/-- The three recognized credential shapes. -/
inductive CredKind where
  | service
  | cert
  | generic
deriving DecidableEq

/-- The classification `Run`'s if/else-if chain performs on a key:
the three prefix tests in the source's order, first match wins. -/
def classify (key : String) : Option CredKind :=
  if stringsHasPrefix key serviceCredSecretKeyPrefix then some .service
  else if stringsHasPrefix key certSecretKeyPrefix then some .cert
  else if stringsHasPrefix key genericSecretKeyPrefix then some .generic
  else none

/-- A string over a realistic identifier alphabet: one with no `/`, the
path separator. -/
abbrev slashFree (s : String) : Prop := '/' ∉ s.data

/-! ### Concrete inputs used by the witness theorems -/

/-- An environment where setup succeeds and every vault write succeeds
(`fetchResult = none` doubles as the fetch-failure case for `Run`). -/
def envW : RunEnv := ⟨true, none, true, fun _ _ _ => true⟩

/-- One malformed entry (a JSON string where an object is expected) plus
two well-formed entries of mixed types, at timestamp 5. -/
def svC1 : SecretValues :=
  ⟨[("SERVICE-CRED-bad", .jstr "not-json"),
    ("SERVICE-CRED-db", .jobj [("entityName", .jstr "orders"), ("credIndetifier", .jstr "primary"),
      ("userName", .jstr "svc"), ("password", .jstr "p1")]),
    ("CERTS-web", .jobj [("entityName", .jstr "web"), ("certIndetifier", .jstr "tls1"),
      ("caCert", .jstr "A"), ("cert", .jstr "B"), ("key", .jstr "C")])], 5⟩

def envC1 : RunEnv := ⟨true, some svC1, true, fun _ _ _ => true⟩

/-- One well-formed entry at timestamp 7. -/
def svC2 : SecretValues :=
  ⟨[("SERVICE-CRED-db", .jobj [("entityName", .jstr "orders"), ("credIndetifier", .jstr "primary"),
    ("userName", .jstr "svc"), ("password", .jstr "p1")])], 7⟩

def envC2 : RunEnv := ⟨true, some svC2, true, fun _ _ _ => true⟩

/-- Same secret, but vault authentication fails. -/
def envAuthFail : RunEnv := ⟨true, some svC2, false, fun _ _ _ => true⟩

/-- A service-credential payload whose credential identifier is absent
(decoding to the empty string) but whose validated fields are all set. -/
def svcNoCredIdJson : Json :=
  .jobj [("entityName", .jstr "e"), ("userName", .jstr "u"), ("password", .jstr "p")]

/-- A service-credential payload with an empty username. -/
def svcEmptyUserJson : Json :=
  .jobj [("entityName", .jstr "e"), ("credIndetifier", .jstr "i"), ("password", .jstr "p")]

/-- A service-credential payload whose `additionalData` collides with the
seeded `password` key. -/
def svcOverrideJson : Json :=
  .jobj [("entityName", .jstr "e"), ("credIndetifier", .jstr "i"), ("userName", .jstr "u"),
    ("password", .jstr "top"), ("additionalData", .jobj [("password", .jstr "override")])]

/-- A generic-credential payload whose type tag has upper-case letters,
to observe that the handler does not lower-case it. -/
def genUpperJson : Json :=
  .jobj [("credentialType", .jstr "API-Key"), ("entityName", .jstr "svc1"),
    ("credIndetifier", .jstr "k1"), ("credential", .jobj [("token", .jstr "t")])]

/-- The spec's Scenario B certificate payload. -/
def certJsonB : Json :=
  .jobj [("entityName", .jstr "web"), ("certIndetifier", .jstr "tls1"),
    ("caCert", .jstr "A"), ("cert", .jstr "B"), ("key", .jstr "C")]

/-! ### Map lemmas -/

theorem smapGet_cons (p : String × String) (rest : SMap) (k : String) :
    smapGet (p :: rest) k =
      match smapGet rest k with
      | some r => some r
      | none => if p.1 = k then some p.2 else none := rfl

theorem smapGet_append (l1 l2 : SMap) (k : String) :
    smapGet (l1 ++ l2) k = (smapGet l2 k).or (smapGet l1 k) := by
  induction l1 with
  | nil => cases h : smapGet l2 k <;> simp [smapGet, Option.or, h]
  | cons a l1' ih =>
    rw [List.cons_append, smapGet_cons, smapGet_cons, ih]
    cases h2 : smapGet l2 k <;> cases h1 : smapGet l1' k <;> simp [Option.or]

theorem smapGet_map_replace_self (m : SMap) (k v : String) :
    smapGet (m.map (fun p => if p.1 == k then (k, v) else p)) k =
      if m.any (fun p => p.1 == k) then some v else none := by
  induction m with
  | nil => simp [smapGet]
  | cons a m' ih =>
    rw [List.map_cons, smapGet_cons, ih]
    by_cases ha : a.1 = k
    · by_cases hm : m'.any (fun p => p.1 == k) = true <;>
        simp [ha, hm]
    · by_cases hm : m'.any (fun p => p.1 == k) = true <;>
        simp [ha, hm]

theorem smapGet_map_replace_ne (m : SMap) (k v k' : String) (h : k' ≠ k) :
    smapGet (m.map (fun p => if p.1 == k then (k, v) else p)) k' = smapGet m k' := by
  induction m with
  | nil => simp
  | cons a m' ih =>
    rw [List.map_cons, smapGet_cons, smapGet_cons, ih]
    by_cases ha : a.1 = k
    · simp [ha, Ne.symm h]
    · simp [ha]

theorem smapGet_insert_self (m : SMap) (k v : String) :
    smapGet (smapInsert m k v) k = some v := by
  unfold smapInsert
  by_cases hm : m.any (fun p => p.1 == k) = true
  · rw [if_pos hm, smapGet_map_replace_self, if_pos hm]
  · rw [if_neg hm, smapGet_append]
    simp [smapGet]

theorem smapGet_insert_ne (m : SMap) (k v k' : String) (h : k' ≠ k) :
    smapGet (smapInsert m k v) k' = smapGet m k' := by
  unfold smapInsert
  by_cases hm : m.any (fun p => p.1 == k) = true
  · rw [if_pos hm, smapGet_map_replace_ne m k v k' h]
  · rw [if_neg hm, smapGet_append]
    simp [smapGet, Ne.symm h, Option.or]

theorem smapOverlay_cons (m : SMap) (p : String × String) (rest : SMap) :
    smapOverlay m (p :: rest) = smapOverlay (smapInsert m p.1 p.2) rest := rfl

/-- Overlaying `l` over `m` is last-write-wins: a key present in `l`
reads its (last) `l` value, any other key reads through to `m`. -/
theorem smapGet_overlay (m l : SMap) (k : String) :
    smapGet (smapOverlay m l) k = (smapGet l k).or (smapGet m k) := by
  induction l generalizing m with
  | nil => cases h : smapGet m k <;> simp [smapOverlay, smapGet, Option.or, h]
  | cons a l' ih =>
    rw [smapOverlay_cons, ih, smapGet_cons]
    by_cases ha : a.1 = k
    · cases h' : smapGet l' k <;>
        simp [ha, Option.or, smapGet_insert_self, ha ▸ smapGet_insert_self m a.1 a.2]
    · rw [smapGet_insert_ne m a.1 a.2 k (Ne.symm ha)]
      cases h' : smapGet l' k <;> simp [ha, Option.or]

/-! ### String and classification lemmas -/

theorem string_data_append (a b : String) : (a ++ b).data = a.data ++ b.data := rfl

theorem string_data_injective (a b : String) (h : a.data = b.data) : a = b := by
  cases a
  cases b
  exact congrArg String.mk (by simpa using h)

/-- Two candidate prefixes with different first characters cannot both be
prefixes of the same list. -/
theorem isPrefixOf_head_ne {a b : Char} (as bs l : List Char) (hab : a ≠ b)
    (h : (a :: as).isPrefixOf l = true) : (b :: bs).isPrefixOf l = false := by
  cases l with
  | nil => simp [List.isPrefixOf] at h
  | cons c cs =>
    simp [List.isPrefixOf] at h ⊢
    intro hb
    exact absurd (h.1.trans hb.symm) hab

/-- A `CERTS`-prefixed key is not `SERVICE-CRED`-prefixed. -/
theorem cert_key_not_service (k : String)
    (h : stringsHasPrefix k certSecretKeyPrefix = true) :
    stringsHasPrefix k serviceCredSecretKeyPrefix = false := by
  have h' : (('C' : Char) :: "ERTS".data).isPrefixOf k.data = true := h
  show (('S' : Char) :: "ERVICE-CRED".data).isPrefixOf k.data = false
  exact isPrefixOf_head_ne _ _ _ (by decide) h'

/-- A `GENERIC`-prefixed key is not `SERVICE-CRED`-prefixed. -/
theorem generic_key_not_service (k : String)
    (h : stringsHasPrefix k genericSecretKeyPrefix = true) :
    stringsHasPrefix k serviceCredSecretKeyPrefix = false := by
  have h' : (('G' : Char) :: "ENERIC".data).isPrefixOf k.data = true := h
  show (('S' : Char) :: "ERVICE-CRED".data).isPrefixOf k.data = false
  exact isPrefixOf_head_ne _ _ _ (by decide) h'

/-- A `GENERIC`-prefixed key is not `CERTS`-prefixed. -/
theorem generic_key_not_cert (k : String)
    (h : stringsHasPrefix k genericSecretKeyPrefix = true) :
    stringsHasPrefix k certSecretKeyPrefix = false := by
  have h' : (('G' : Char) :: "ENERIC".data).isPrefixOf k.data = true := h
  show (('C' : Char) :: "ERTS".data).isPrefixOf k.data = false
  exact isPrefixOf_head_ne _ _ _ (by decide) h'

/-- `Run`'s loop body dispatches exactly along `classify`. -/
theorem processEntry_eq_classify (env : RunEnv) (key : String) (value : Json) :
    processEntry env key value =
      match classify key with
      | some .service => .handled (storeServiceCredential env key value)
      | some .cert => .handled (storeCertData env key value)
      | some .generic => .handled (storeGenericCredential env key value)
      | none => .unsupported ("credentail type " ++ key ++ " not supported") := by
  unfold processEntry classify
  by_cases hs : stringsHasPrefix key serviceCredSecretKeyPrefix = true
  · simp [hs]
  · by_cases hc : stringsHasPrefix key certSecretKeyPrefix = true
    · simp [hs, hc]
    · by_cases hg : stringsHasPrefix key genericSecretKeyPrefix = true <;> simp [hs, hc, hg]

/-- Splitting at a separator absent from either left part is injective. -/
theorem slash_split_injective (l1 l2 r1 r2 : List Char)
    (h1 : '/' ∉ l1) (h2 : '/' ∉ l2)
    (h : l1 ++ '/' :: r1 = l2 ++ '/' :: r2) : l1 = l2 ∧ r1 = r2 := by
  induction l1 generalizing l2 with
  | nil =>
    cases l2 with
    | nil => simpa using h
    | cons b bs =>
      simp at h
      rw [← h.1] at h2
      exact absurd (List.mem_cons_self _ _) h2
  | cons a as ih =>
    cases l2 with
    | nil =>
      simp at h
      rw [h.1] at h1
      exact absurd (List.mem_cons_self _ _) h1
    | cons b bs =>
      simp at h
      have h1' : '/' ∉ as := fun hm => h1 (List.mem_cons_of_mem _ hm)
      have h2' : '/' ∉ bs := fun hm => h2 (List.mem_cons_of_mem _ hm)
      obtain ⟨hab, hrest⟩ := ih bs h1' h2' h.2
      exact ⟨by rw [h.1, hab], hrest⟩

/-- `storeServiceCredential` uses its `secretIdentifier` argument only in
log/error message text, never in the write it performs. -/
theorem storeServiceCredential_key_only_in_messages (env : RunEnv) (k k' : String) (j : Json) :
    (storeServiceCredential env k j).attempted = (storeServiceCredential env k' j).attempted ∧
    (storeServiceCredential env k j).succeeded = (storeServiceCredential env k' j).succeeded := by
  cases hdec : decodeServiceCredentail j with
  | none => simp [storeServiceCredential, hdec, StoreOutcome.attempted, StoreOutcome.succeeded]
  | some d =>
    by_cases hv : d.UserName = "" ∨ d.Password = "" ∨ d.EntityName = ""
    · simp [storeServiceCredential, hdec, hv]
    · by_cases hw : env.writeOk CredentialMountPath
          (PrepareCredentialSecretPath (stringsToLower serviceCredSecretKeyPrefix)
            d.EntityName d.CredIndentifier)
          (serviceCredAttrs d) = true <;>
        simp [storeServiceCredential, hdec, hv, hw,
          StoreOutcome.attempted, StoreOutcome.succeeded]

/-- `storeCertData` uses its `secretIdentifier` argument only in
log/error message text. -/
theorem storeCertData_key_only_in_messages (env : RunEnv) (k k' : String) (j : Json) :
    (storeCertData env k j).attempted = (storeCertData env k' j).attempted ∧
    (storeCertData env k j).succeeded = (storeCertData env k' j).succeeded := by
  cases hdec : decodeCertificateData j with
  | none => simp [storeCertData, hdec, StoreOutcome.attempted, StoreOutcome.succeeded]
  | some d =>
    by_cases hv : d.CACert = "" ∨ d.Cert = "" ∨ d.Key = "" ∨
        d.EntityName = "" ∨ d.CertIndentifier = ""
    · simp [storeCertData, hdec, hv]
    · by_cases hw : env.writeOk CredentialMountPath
          (PrepareCredentialSecretPath (stringsToLower certSecretKeyPrefix)
            d.EntityName d.CertIndentifier)
          (certCredAttrs d) = true <;>
        simp [storeCertData, hdec, hv, hw,
          StoreOutcome.attempted, StoreOutcome.succeeded]

/-- `storeGenericCredential` uses its `secretIdentifier` argument only in
log/error message text. -/
theorem storeGenericCredential_key_only_in_messages (env : RunEnv) (k k' : String) (j : Json) :
    (storeGenericCredential env k j).attempted = (storeGenericCredential env k' j).attempted ∧
    (storeGenericCredential env k j).succeeded = (storeGenericCredential env k' j).succeeded := by
  cases hdec : decodeGenericCredential j with
  | none => simp [storeGenericCredential, hdec, StoreOutcome.attempted, StoreOutcome.succeeded]
  | some d =>
    by_cases hv : d.EntityName = "" ∨ d.CredIndentifier = "" ∨ d.CredentialType = ""
    · simp [storeGenericCredential, hdec, hv]
    · by_cases hw : env.writeOk CredentialMountPath
          (PrepareCredentialSecretPath d.CredentialType d.EntityName d.CredIndentifier)
          (genericCredAttrs d) = true <;>
        simp [storeGenericCredential, hdec, hv, hw,
          StoreOutcome.attempted, StoreOutcome.succeeded]

/-! ### The claims -/

/-- **C1**: once `Run` starts iterating the fetched secret's entries, each
entry's result is a function of that entry alone — a parse, validation or
write failure skips only that entry and never aborts the cycle — and
after the loop the cursor is always set to the fetched secret's
`LastUpdatedTime`, however many entries failed; the successful writes are
exactly those of the individually succeeding entries. -/
theorem run_isolates_entries_and_updates_cursor
    (cursor : Option Int) (env : RunEnv) (sv : SecretValues)
    (hk : env.k8sOk = true) (hf : env.fetchResult = some sv)
    (hc : cursorSkips cursor sv.lastUpdatedTime = false)
    (ha : env.authOk = true) :
    (Run cursor env).1 = some sv.lastUpdatedTime ∧
    (Run cursor env).2.entries = sv.data.map (fun p => (p.1, processEntry env p.1 p.2)) ∧
    (Run cursor env).2.successfulWrites
      = sv.data.filterMap (fun p => (processEntry env p.1 p.2).succeeded) := by
  have hrun : Run cursor env
      = (some sv.lastUpdatedTime,
          ⟨1, sv.data.map (fun p => (p.1, processEntry env p.1 p.2))⟩) := by
    simp [Run, hk, hf, hc, ha]
  rw [hrun]
  refine ⟨rfl, rfl, ?_⟩
  simp only [RunTrace.successfulWrites, List.filterMap_map]
  rfl

/-- **C1 witness**: a secret map with one malformed entry and two
well-formed entries of mixed types yields exactly two successful writes,
and the cursor is still updated to the new timestamp. -/
theorem run_isolates_entries_witness :
    cursorSkips none svC1.lastUpdatedTime = false ∧
    (Run none envC1).1 = some 5 ∧
    (Run none envC1).2.successfulWrites.length = 2 := by
  have h := run_isolates_entries_and_updates_cursor none envC1 svC1 rfl rfl (by decide) rfl
  refine ⟨by decide, h.1, ?_⟩
  rw [h.2.2]
  decide

/-- **C2**: when a cursor exists and equals the fetched timestamp exactly,
`Run` exits before authenticating — zero authentications, zero entries
processed, cursor unchanged; for any other fetched timestamp (an earlier
one included) it reprocesses every entry and moves the cursor. -/
theorem run_cursor_exact_match_skips
    (t : Int) (env : RunEnv) (sv : SecretValues)
    (hk : env.k8sOk = true) (hf : env.fetchResult = some sv) :
    (sv.lastUpdatedTime = t →
      Run (some t) env = (some t, ⟨0, []⟩)) ∧
    (sv.lastUpdatedTime ≠ t → env.authOk = true →
      (Run (some t) env).1 = some sv.lastUpdatedTime ∧
      (Run (some t) env).2.entries
        = sv.data.map (fun p => (p.1, processEntry env p.1 p.2))) := by
  constructor
  · intro heq
    simp [Run, hk, hf, cursorSkips, heq]
  · intro hne ha
    simp [Run, hk, hf, cursorSkips, Ne.symm hne, ha]

/-- **C2 witness**: with the fetched timestamp 7, a stored cursor of 7
makes the cycle a no-op (no authentication, no writes), while a stored
cursor of 9 — later than the fetched one — still reprocesses the entry
and overwrites the cursor with 7. -/
theorem run_cursor_exact_match_witness :
    Run (some 7) envC2 = (some 7, ⟨0, []⟩) ∧
    (Run (some 9) envC2).1 = some 7 ∧
    (Run (some 9) envC2).2.entries.length = 1 := by
  refine ⟨(run_cursor_exact_match_skips 7 envC2 svC2 rfl rfl).1 rfl, ?_, ?_⟩
  · exact ((run_cursor_exact_match_skips 9 envC2 svC2 rfl rfl).2 (by decide) rfl).1
  · have h := ((run_cursor_exact_match_skips 9 envC2 svC2 rfl rfl).2 (by decide) rfl).2
    rw [h]
    decide

/-- **C3**: a failed k8s-client init, a failed secret fetch, or a failed
vault authentication aborts the cycle with no entries processed (hence no
vault writes) and the cursor left unchanged. -/
theorem run_setup_failure_no_mutation (cursor : Option Int) (env : RunEnv) :
    (env.k8sOk = false → Run cursor env = (cursor, ⟨0, []⟩)) ∧
    (env.fetchResult = none → Run cursor env = (cursor, ⟨0, []⟩)) ∧
    (env.authOk = false →
      (Run cursor env).1 = cursor ∧ (Run cursor env).2.entries = []) := by
  refine ⟨fun hk => ?_, fun hf => ?_, fun ha => ?_⟩
  · simp [Run, hk]
  · cases hk : env.k8sOk <;> simp [Run, hk, hf]
  · rcases hf : env.fetchResult with _ | sv
    · cases hk : env.k8sOk <;> simp [Run, hk, hf]
    · cases hk : env.k8sOk
      · simp [Run, hk]
      · cases hcs : cursorSkips cursor sv.lastUpdatedTime <;>
          simp [Run, hk, hf, hcs, ha]

/-- **C3 witness**: with a stored cursor of 3, a fetch failure and an
authentication failure each leave the cursor at 3 with no entry
processed. -/
theorem run_setup_failure_witness :
    Run (some 3) envW = (some 3, ⟨0, []⟩) ∧
    (Run (some 3) envAuthFail).1 = some 3 ∧
    (Run (some 3) envAuthFail).2.entries = [] := by
  refine ⟨(run_setup_failure_no_mutation (some 3) envW).2.1 rfl, ?_⟩
  exact (run_setup_failure_no_mutation (some 3) envAuthFail).2.2 rfl

/-- **C4**: the loop tests the key against `SERVICE-CRED`, then `CERTS`,
then `GENERIC`, dispatching to the first matching handler (the three
prefixes are mutually exclusive at their first character, so each test is
also decisive); a key matching none is logged informationally, with no
store call, no error and no write. -/
theorem classification_precedence (env : RunEnv) (key : String) (value : Json) :
    (stringsHasPrefix key serviceCredSecretKeyPrefix = true →
      processEntry env key value = .handled (storeServiceCredential env key value)) ∧
    (stringsHasPrefix key certSecretKeyPrefix = true →
      processEntry env key value = .handled (storeCertData env key value)) ∧
    (stringsHasPrefix key genericSecretKeyPrefix = true →
      processEntry env key value = .handled (storeGenericCredential env key value)) ∧
    (stringsHasPrefix key serviceCredSecretKeyPrefix = false →
      stringsHasPrefix key certSecretKeyPrefix = false →
      stringsHasPrefix key genericSecretKeyPrefix = false →
      processEntry env key value
        = .unsupported ("credentail type " ++ key ++ " not supported") ∧
      (processEntry env key value).attempted = none ∧
      (processEntry env key value).loggedError = false) := by
  refine ⟨fun hs => ?_, fun hc => ?_, fun hg => ?_, fun h1 h2 h3 => ?_⟩
  · simp [processEntry, hs]
  · simp [processEntry, hc, cert_key_not_service key hc]
  · simp [processEntry, hg, generic_key_not_service key hg, generic_key_not_cert key hg]
  · have hu : processEntry env key value
        = .unsupported ("credentail type " ++ key ++ " not supported") := by
      simp [processEntry, h1, h2, h3]
    exact ⟨hu, by rw [hu]; rfl, by rw [hu]; rfl⟩

/-- **C4 witness**: one key per recognized prefix routes to its handler,
and an unrecognized key yields the informational log only. -/
theorem classification_precedence_witness :
    processEntry envW "SERVICE-CRED-a" Json.jnull
      = .handled (storeServiceCredential envW "SERVICE-CRED-a" Json.jnull) ∧
    processEntry envW "CERTS-a" Json.jnull
      = .handled (storeCertData envW "CERTS-a" Json.jnull) ∧
    processEntry envW "GENERIC-a" Json.jnull
      = .handled (storeGenericCredential envW "GENERIC-a" Json.jnull) ∧
    processEntry envW "UNKNOWN-a" Json.jnull
      = .unsupported "credentail type UNKNOWN-a not supported" := by
  refine ⟨(classification_precedence envW "SERVICE-CRED-a" Json.jnull).1 (by decide),
    (classification_precedence envW "CERTS-a" Json.jnull).2.1 (by decide),
    (classification_precedence envW "GENERIC-a" Json.jnull).2.2.1 (by decide),
    ((classification_precedence envW "UNKNOWN-a" Json.jnull).2.2.2
      (by decide) (by decide) (by decide)).1⟩

/-- **C5 counterexample**: a Service Credential record whose credential
identifier is empty is NOT rejected — the source's validation checks only
username, password and entity name — so the entry is written to the
vault, empty identifier in the path and all. -/
theorem service_empty_cred_identifier_not_rejected :
    decodeServiceCredentail svcNoCredIdJson = some ⟨"e", "", "u", "p", []⟩ ∧
    (storeServiceCredential envW "SERVICE-CRED-a" svcNoCredIdJson).succeeded
      = some ⟨"secret", "service-cred/e/", [("userName", "u"), ("password", "p")]⟩ := by
  decide

/-- **C5 (amended)**: a record whose coded required fields — username,
password and entity name for a service credential (the credential
identifier is NOT validated); all five fields for a certificate; entity
name, credential identifier and credential type for a generic
credential — include an empty one is skipped with no vault write, and
the run continues (the store operation returns before calling
`PutCredential`; per `pkg/errors` the returned error is even `nil`). -/
theorem validation_rejects_empty_required_fields
    (env : RunEnv) (k : String) (j : Json) :
    (∀ d, decodeServiceCredentail j = some d →
      (d.UserName = "" ∨ d.Password = "" ∨ d.EntityName = "") →
      storeServiceCredential env k j = .validationSkip) ∧
    (∀ d, decodeCertificateData j = some d →
      (d.CACert = "" ∨ d.Cert = "" ∨ d.Key = "" ∨
        d.EntityName = "" ∨ d.CertIndentifier = "") →
      storeCertData env k j = .validationSkip) ∧
    (∀ d, decodeGenericCredential j = some d →
      (d.EntityName = "" ∨ d.CredIndentifier = "" ∨ d.CredentialType = "") →
      storeGenericCredential env k j = .validationSkip) := by
  refine ⟨fun d hd hemp => ?_, fun d hd hemp => ?_, fun d hd hemp => ?_⟩
  · simp [storeServiceCredential, hd, hemp]
  · simp [storeCertData, hd, hemp]
  · simp [storeGenericCredential, hd, hemp]

/-- **C5 witness**: a service-credential entry with an empty username is
skipped without a write. -/
theorem validation_rejects_empty_witness :
    storeServiceCredential envW "SERVICE-CRED-a" svcEmptyUserJson
      = StoreOutcome.validationSkip := by
  exact (validation_rejects_empty_required_fields envW "SERVICE-CRED-a" svcEmptyUserJson).1
    ⟨"e", "i", "", "p", []⟩ (by decide) (Or.inl rfl)

/-- **C6**: for a valid service credential the written attribute map is
the `userName`/`password` seed overlaid by every `AdditionalData` entry,
last write wins: an `AdditionalData` key `password` overrides the
record's top-level password, while without a collision the seeded values
survive. -/
theorem service_credential_attr_overlay
    (env : RunEnv) (k : String) (j : Json) (d : ServiceCredentail)
    (hd : decodeServiceCredentail j = some d)
    (hu : d.UserName ≠ "") (hp : d.Password ≠ "") (he : d.EntityName ≠ "") :
    (storeServiceCredential env k j).attempted
      = some ⟨CredentialMountPath,
          PrepareCredentialSecretPath (stringsToLower serviceCredSecretKeyPrefix)
            d.EntityName d.CredIndentifier,
          serviceCredAttrs d⟩ ∧
    (∀ v, smapGet d.AdditionalData serviceCredentialPasswordKey = some v →
      smapGet (serviceCredAttrs d) serviceCredentialPasswordKey = some v) ∧
    (smapGet d.AdditionalData serviceCredentialPasswordKey = none →
      smapGet (serviceCredAttrs d) serviceCredentialPasswordKey = some d.Password) ∧
    (smapGet d.AdditionalData serviceCredentialUserNameKey = none →
      smapGet (serviceCredAttrs d) serviceCredentialUserNameKey = some d.UserName) := by
  have hv : ¬(d.UserName = "" ∨ d.Password = "" ∨ d.EntityName = "") := by
    simp [hu, hp, he]
  refine ⟨?_, fun v hcoll => ?_, fun hnone => ?_, fun hnone => ?_⟩
  · by_cases hw : env.writeOk CredentialMountPath
        (PrepareCredentialSecretPath (stringsToLower serviceCredSecretKeyPrefix)
          d.EntityName d.CredIndentifier)
        (serviceCredAttrs d) = true <;>
      simp [storeServiceCredential, hd, hv, hw, StoreOutcome.attempted]
  · rw [serviceCredAttrs, smapGet_overlay, hcoll]
    rfl
  · rw [serviceCredAttrs, smapGet_overlay, hnone]
    simp [smapGet, Option.or, serviceCredentialUserNameKey, serviceCredentialPasswordKey]
  · rw [serviceCredAttrs, smapGet_overlay, hnone]
    simp [smapGet, Option.or, serviceCredentialUserNameKey, serviceCredentialPasswordKey]

/-- **C6 witness**: with `additionalData` carrying `password = override`,
the written map's `password` is `override`, not the record's top-level
`top`. -/
theorem service_credential_attr_overlay_witness :
    (storeServiceCredential envW "SERVICE-CRED-a" svcOverrideJson).attempted
      = some ⟨"secret", "service-cred/e/i", [("userName", "u"), ("password", "override")]⟩ ∧
    smapGet (serviceCredAttrs ⟨"e", "i", "u", "top", [("password", "override")]⟩)
      serviceCredentialPasswordKey = some "override" := by
  have h := service_credential_attr_overlay envW "SERVICE-CRED-a" svcOverrideJson
    ⟨"e", "i", "u", "top", [("password", "override")]⟩
    (by decide) (by decide) (by decide) (by decide)
  exact ⟨by rw [h.1]; decide, h.2.1 "override" (by decide)⟩

/-- **C7**: for a valid generic credential the attempted write's
attribute map reads exactly as the record's own `Credential` map (no
seeded keys) and its path's type segment is the record's own
`CredentialType`, used verbatim — not the `GENERIC` classification
prefix, and not lower-cased. -/
theorem generic_credential_payload_and_path
    (env : RunEnv) (k : String) (j : Json) (d : GenericCredential)
    (hd : decodeGenericCredential j = some d)
    (he : d.EntityName ≠ "") (hc : d.CredIndentifier ≠ "") (ht : d.CredentialType ≠ "") :
    (storeGenericCredential env k j).attempted
      = some ⟨CredentialMountPath,
          PrepareCredentialSecretPath d.CredentialType d.EntityName d.CredIndentifier,
          genericCredAttrs d⟩ ∧
    (∀ key, smapGet (genericCredAttrs d) key = smapGet d.Credential key) := by
  have hv : ¬(d.EntityName = "" ∨ d.CredIndentifier = "" ∨ d.CredentialType = "") := by
    simp [he, hc, ht]
  refine ⟨?_, fun key => ?_⟩
  · by_cases hw : env.writeOk CredentialMountPath
        (PrepareCredentialSecretPath d.CredentialType d.EntityName d.CredIndentifier)
        (genericCredAttrs d) = true <;>
      simp [storeGenericCredential, hd, hv, hw, StoreOutcome.attempted]
  · rw [genericCredAttrs, smapGet_overlay]
    cases h : smapGet d.Credential key <;> simp [h, Option.or, smapGet]

/-- **C7 witness**: a generic record with type tag `API-Key` is written
at path `API-Key/svc1/k1` (tag verbatim, upper case preserved) with
attributes exactly `{token: t}`. -/
theorem generic_credential_payload_witness :
    (storeGenericCredential envW "GENERIC-x" genUpperJson).attempted
      = some ⟨"secret", "API-Key/svc1/k1", [("token", "t")]⟩ := by
  have h := generic_credential_payload_and_path envW "GENERIC-x" genUpperJson
    ⟨"API-Key", "svc1", "k1", [("token", "t")]⟩
    (by decide) (by decide) (by decide) (by decide)
  rw [h.1]
  decide

/-- **C8**: for a valid certificate record (all five fields non-empty)
the attempted write's attribute map is exactly the three fixed keys
`ca.pem`, `cert.crt`, `key.key`, mapped from the record's CA cert, cert
and key, and the path uses the lower-cased certificate prefix `certs`
with the entity name and certificate identifier. -/
theorem cert_fixed_attrs_and_path
    (env : RunEnv) (k : String) (j : Json) (d : CertificateData)
    (hd : decodeCertificateData j = some d)
    (hca : d.CACert ≠ "") (hct : d.Cert ≠ "") (hk : d.Key ≠ "")
    (he : d.EntityName ≠ "") (hi : d.CertIndentifier ≠ "") :
    (storeCertData env k j).attempted
      = some ⟨CredentialMountPath,
          PrepareCredentialSecretPath "certs" d.EntityName d.CertIndentifier,
          [(caDataKey, d.CACert), (certDataKey, d.Cert), (keyDataKey, d.Key)]⟩ ∧
    stringsToLower certSecretKeyPrefix = "certs" := by
  have hlow : stringsToLower certSecretKeyPrefix = "certs" := by decide
  have hv : ¬(d.CACert = "" ∨ d.Cert = "" ∨ d.Key = "" ∨
      d.EntityName = "" ∨ d.CertIndentifier = "") := by
    simp [hca, hct, hk, he, hi]
  refine ⟨?_, hlow⟩
  by_cases hw : env.writeOk CredentialMountPath
      (PrepareCredentialSecretPath "certs" d.EntityName d.CertIndentifier)
      [(caDataKey, d.CACert), (certDataKey, d.Cert), (keyDataKey, d.Key)] = true <;>
    simp [storeCertData, hd, hv, hw, hlow, StoreOutcome.attempted, certCredAttrs]

/-- **C8 witness**: the spec's Scenario B — one write with attributes
`{ca.pem: A, cert.crt: B, key.key: C}` at path `certs/web/tls1`. -/
theorem cert_fixed_attrs_witness :
    (storeCertData envW "CERTS-web" certJsonB).attempted
      = some ⟨"secret", "certs/web/tls1",
          [("ca.pem", "A"), ("cert.crt", "B"), ("key.key", "C")]⟩ := by
  have h := cert_fixed_attrs_and_path envW "CERTS-web" certJsonB ⟨"web", "tls1", "A", "C", "B"⟩
    (by decide) (by decide) (by decide) (by decide) (by decide) (by decide)
  rw [h.1]
  decide

/-- **C9**: the path construction shared by all three store operations is
a pure function — the same triple always yields the same path — and over
slash-free type/entity components distinct triples never collide. -/
theorem prepare_path_pure_and_injective (t1 e1 i1 t2 e2 i2 : String)
    (ht1 : slashFree t1) (ht2 : slashFree t2)
    (he1 : slashFree e1) (he2 : slashFree e2) :
    PrepareCredentialSecretPath t1 e1 i1 = PrepareCredentialSecretPath t1 e1 i1 ∧
    (PrepareCredentialSecretPath t1 e1 i1 = PrepareCredentialSecretPath t2 e2 i2 →
      t1 = t2 ∧ e1 = e2 ∧ i1 = i2) := by
  refine ⟨rfl, fun h => ?_⟩
  have hdata : t1.data ++ '/' :: (e1.data ++ '/' :: i1.data)
      = t2.data ++ '/' :: (e2.data ++ '/' :: i2.data) := by
    have := congrArg String.data h
    simpa [PrepareCredentialSecretPath, string_data_append, List.append_assoc] using this
  obtain ⟨hT, hrest⟩ := slash_split_injective _ _ _ _ ht1 ht2 hdata
  obtain ⟨hE, hI⟩ := slash_split_injective _ _ _ _ he1 he2 hrest
  exact ⟨string_data_injective _ _ hT, string_data_injective _ _ hE,
    string_data_injective _ _ hI⟩

/-- **C9 witness**: instantiation at a concrete triple. -/
theorem prepare_path_pure_witness :
    PrepareCredentialSecretPath "service-cred" "orders" "primary"
      = PrepareCredentialSecretPath "service-cred" "orders" "primary" ∧
    ("service-cred" : String) = "service-cred" := by
  have h := prepare_path_pure_and_injective "service-cred" "orders" "primary"
    "service-cred" "orders" "primary" (by decide) (by decide) (by decide) (by decide)
  exact ⟨h.1, (h.2 rfl).1⟩

/-- **C10**: the entry key only selects the handler and decorates log and
error messages; two keys classifying to the same handler, given equal
payloads, produce identical attempted and successful vault writes — same
mount path, same secret path, same attribute map — so differently-keyed
entries with equal payloads target the same vault location. -/
theorem equal_payload_same_vault_effect (env : RunEnv) (k1 k2 : String) (value : Json)
    (c : CredKind) (h1 : classify k1 = some c) (h2 : classify k2 = some c) :
    (processEntry env k1 value).attempted = (processEntry env k2 value).attempted ∧
    (processEntry env k1 value).succeeded = (processEntry env k2 value).succeeded := by
  have e1 := processEntry_eq_classify env k1 value
  have e2 := processEntry_eq_classify env k2 value
  rw [h1] at e1
  rw [h2] at e2
  cases c with
  | service =>
    rw [e1, e2]
    exact ⟨(storeServiceCredential_key_only_in_messages env k1 k2 value).1,
      (storeServiceCredential_key_only_in_messages env k1 k2 value).2⟩
  | cert =>
    rw [e1, e2]
    exact ⟨(storeCertData_key_only_in_messages env k1 k2 value).1,
      (storeCertData_key_only_in_messages env k1 k2 value).2⟩
  | generic =>
    rw [e1, e2]
    exact ⟨(storeGenericCredential_key_only_in_messages env k1 k2 value).1,
      (storeGenericCredential_key_only_in_messages env k1 k2 value).2⟩

/-- **C10 witness**: two differently-keyed service entries with equal
payloads have identical write effects. -/
theorem equal_payload_same_vault_effect_witness :
    (processEntry envW "SERVICE-CRED-a" svcOverrideJson).attempted
      = (processEntry envW "SERVICE-CRED-b" svcOverrideJson).attempted ∧
    (processEntry envW "SERVICE-CRED-a" svcOverrideJson).succeeded
      = (processEntry envW "SERVICE-CRED-b" svcOverrideJson).succeeded := by
  exact equal_payload_same_vault_effect envW "SERVICE-CRED-a" "SERVICE-CRED-b" svcOverrideJson
    CredKind.service (by decide) (by decide)

end VaultCredSync
